import Mathlib

/-!
Verification development for the "thegogfather.com" repository.

The repository is a Next.js marketing site with a Firebase-backed photo
archive and an admin panel.  This file shallowly embeds the pure logic of
its five source files:

* `getFirebaseConfig` — configuration resolution of the public page
  (src/app/page.tsx lines 32-83); the variant of src/unnamed/part_001
  lines 13-61, which applies no sanitization at all, is embedded in
  namespace `Part1`; the variant with a hardcoded fallback at
  src/app/admin/page.tsx lines 955-1009 in namespace `Admin3`;
* `groupPhotosByDate` — year/month archive grouping (src/app/page.tsx
  lines 88-110, src/app/admin/page.tsx lines 1011-1023);
* `handleAddPhoto` / `handleFeaturePhoto` — the admin mutations, in the
  two admin-page variants (`Admin1` embeds src/app/admin/page.tsx lines
  228-330, `Admin2` embeds lines 579-702);
* the featured/others split performed inside the public page snapshot
  callback (src/app/page.tsx lines 212-227, src/unnamed/part_001 lines
  177-191, src/app/admin/page.tsx lines 1118-1122), embedded as
  `splitFeatured`.

External effects (Firestore writes, auth callbacks) are made explicit:
handlers return the list of network writes they issue alongside the new
component state, and the remote outcome of a write is a parameter.
-/

namespace Gogfather

/-- JavaScript truthiness of a `string | undefined` value: `undefined`
and the empty string are falsy, every other string is truthy. -/
def jsTruthy : Option String → Bool
  | none => false
  | some s => !(s == "")

/-- The character class `[a-zA-Z0-9_-]` of the sanitization regexes in
src/app/page.tsx line 52, src/app/admin/page.tsx lines 29 and 978. -/
def isAllowedChar (c : Char) : Bool :=
  c.isAlpha || c.isDigit || c == '_' || c == '-'

/-- the JS replace of the sanitization regex with a hyphen — every character outside the
allowed class is replaced by a hyphen. -/
def replaceDisallowed (s : String) : String :=
  String.mk (s.toList.map fun c => if isAllowedChar c then c else '-')

/-! ## Date and timestamp model

`photo.timestamp.toDate()` returns a JS `Date`; the code only reads its
calendar year (`getFullYear`) and its en-US long month name
(the toLocaleString month long option).  We model the `Date` by
those two observables. -/

/-- A JS `Date` as observed by the repository: calendar year and month. -/
structure JsDate where
  fullYear : Int
  monthIndex : Fin 12
deriving DecidableEq, Repr

/-- `date.getFullYear()`. -/
def JsDate.getFullYear (d : JsDate) : Int := d.fullYear

/-- The twelve en-US long month names. -/
def monthNames : List String :=
  ["January", "February", "March", "April", "May", "June",
   "July", "August", "September", "October", "November", "December"]

/-- The call of toLocaleString with the month long option on a date. -/
def JsDate.toLocaleMonthLong (d : JsDate) : String :=
  monthNames.get ⟨d.monthIndex.val, by simp [monthNames]⟩

/-- A Firestore `Timestamp`; the code only ever calls `.toDate()`. -/
structure Timestamp where
  toDate : JsDate
deriving DecidableEq, Repr

/-- A photo record (interface `Photo`, src/app/page.tsx lines 21-28).
`timestamp` is `none` when the stored value is missing or is not
convertible to a date (the `!photo.timestamp ||
typeof photo.timestamp.toDate is not a function` guard, and the
`instanceof Timestamp` guard of part_001). -/
structure Photo where
  id : String
  url : String
  caption : String
  isFeatured : Bool
  timestamp : Option Timestamp
  userId : String
deriving DecidableEq, Repr

/-! ## Configuration resolution (`getFirebaseConfig`) -/

/-- The Vercel/Next.js environment variables read at the top of every
`getFirebaseConfig` variant; each is `undefined` (`none`) when unset. -/
structure ExternalConfig where
  apiKey : Option String
  authDomain : Option String
  projectId : Option String
  appId : Option String
deriving DecidableEq, Repr

/-- The Canvas runtime-injected globals.  `firebase_config` is the result
of `JSON.parse(__firebase_config)`: `some blob` on success, `none` when
the global is missing or malformed (the `try`/`catch` swallows the
exception and falls through). -/
structure CanvasGlobals where
  app_id : String
  firebase_config : Option String
  initial_auth_token : Option String
deriving DecidableEq, Repr

/-- Which source the returned `firebaseConfig` object came from: the
parsed Canvas blob, the environment variables, or the empty object. -/
inductive FirebaseConfigSource where
  | canvas (blob : String)
  | external (cfg : ExternalConfig)
  | empty
deriving DecidableEq, Repr

/-- The tuple returned by `getFirebaseConfig`. -/
structure ResolvedFirebase where
  firebaseConfig : FirebaseConfigSource
  initialAuthToken : Option String
  appId : String
  isCanvasEnv : Bool
deriving DecidableEq, Repr

/-- `getFirebaseConfig` of the public page (src/app/page.tsx lines
32-83).  Canvas branch: `finalAppId = vercelProjectId ||
the sanitized __app_id`.  Environment branch (taken
when the Canvas globals are absent or unparsable, and both a project id
and an API key are truthy): `appId = externalConfig.projectId`,
unsanitized.  Otherwise the fallback. -/
def getFirebaseConfig (env : ExternalConfig) (canvas : Option CanvasGlobals) :
    ResolvedFirebase :=
  match canvas with
  | some cg =>
    match cg.firebase_config with
    | some blob =>
      { firebaseConfig := .canvas blob
        initialAuthToken := cg.initial_auth_token
        appId :=
          if jsTruthy env.projectId then env.projectId.getD ""
          else replaceDisallowed cg.app_id
        isCanvasEnv := true }
    | none =>
      if jsTruthy env.projectId && jsTruthy env.apiKey then
        { firebaseConfig := .external env
          initialAuthToken := none
          appId := env.projectId.getD ""
          isCanvasEnv := false }
      else
        { firebaseConfig := .empty
          initialAuthToken := none
          appId := "default-app-id"
          isCanvasEnv := false }
  | none =>
    if jsTruthy env.projectId && jsTruthy env.apiKey then
      { firebaseConfig := .external env
        initialAuthToken := none
        appId := env.projectId.getD ""
        isCanvasEnv := false }
    else
      { firebaseConfig := .empty
        initialAuthToken := none
        appId := "default-app-id"
        isCanvasEnv := false }

namespace Admin3

/-- `HARDCODED_PROJECT_ID` (src/app/admin/page.tsx line 957). -/
def HARDCODED_PROJECT_ID : String := "gogfatherweb"

/-- `getFirebaseConfig` of the third admin-page variant
(src/app/admin/page.tsx lines 955-1009).  Canvas branch: `rawAppId =
vercelProjectId || HARDCODED_PROJECT_ID || __app_id`, then sanitized.
Environment branch: `appId = externalConfig.projectId`, unsanitized.
Fallback: `appId = HARDCODED_PROJECT_ID || "default-app-id"`, i.e. the
hardcoded literal since it is truthy. -/
def getFirebaseConfig (env : ExternalConfig) (canvas : Option CanvasGlobals) :
    ResolvedFirebase :=
  match canvas with
  | some cg =>
    match cg.firebase_config with
    | some blob =>
      { firebaseConfig := .canvas blob
        initialAuthToken := cg.initial_auth_token
        appId :=
          replaceDisallowed
            (if jsTruthy env.projectId then env.projectId.getD ""
             else HARDCODED_PROJECT_ID)
        isCanvasEnv := true }
    | none =>
      if jsTruthy env.projectId && jsTruthy env.apiKey then
        { firebaseConfig := .external env
          initialAuthToken := none
          appId := env.projectId.getD ""
          isCanvasEnv := false }
      else
        { firebaseConfig := .empty
          initialAuthToken := none
          appId := HARDCODED_PROJECT_ID
          isCanvasEnv := false }
  | none =>
    if jsTruthy env.projectId && jsTruthy env.apiKey then
      { firebaseConfig := .external env
        initialAuthToken := none
        appId := env.projectId.getD ""
        isCanvasEnv := false }
    else
      { firebaseConfig := .empty
        initialAuthToken := none
        appId := HARDCODED_PROJECT_ID
        isCanvasEnv := false }

end Admin3

namespace Part1

/-- `getFirebaseConfig` of src/unnamed/part_001 (lines 13-61).  Its
Canvas branch computes `finalAppId = externalConfig.projectId ||
__app_id` with no sanitization anywhere: a truthy environment project id
is used verbatim, and otherwise the raw Canvas session id itself becomes
the namespace.  Environment branch and fallback are as in the public
page: `appId = externalConfig.projectId` verbatim, else the literal
"default-app-id". -/
def getFirebaseConfig (env : ExternalConfig) (canvas : Option CanvasGlobals) :
    ResolvedFirebase :=
  match canvas with
  | some cg =>
    match cg.firebase_config with
    | some blob =>
      { firebaseConfig := .canvas blob
        initialAuthToken := cg.initial_auth_token
        appId :=
          if jsTruthy env.projectId then env.projectId.getD ""
          else cg.app_id
        isCanvasEnv := true }
    | none =>
      if jsTruthy env.projectId && jsTruthy env.apiKey then
        { firebaseConfig := .external env
          initialAuthToken := none
          appId := env.projectId.getD ""
          isCanvasEnv := false }
      else
        { firebaseConfig := .empty
          initialAuthToken := none
          appId := "default-app-id"
          isCanvasEnv := false }
  | none =>
    if jsTruthy env.projectId && jsTruthy env.apiKey then
      { firebaseConfig := .external env
        initialAuthToken := none
        appId := env.projectId.getD ""
        isCanvasEnv := false }
    else
      { firebaseConfig := .empty
        initialAuthToken := none
        appId := "default-app-id"
        isCanvasEnv := false }

end Part1

/-! ## Date grouping (`groupPhotosByDate`)

The source accumulates into a plain JS object of objects of arrays:
`grouped[year][month].push(photo)`, creating missing levels on demand.
We model each object level as an association list in key-insertion
order; `push` appends at the end of the bucket. -/

/-- Association-list lookup (JS property read `obj[key]`). -/
def lookupA {β : Type} : List (String × β) → String → Option β
  | [], _ => none
  | (k, v) :: rest, key => if k = key then some v else lookupA rest key

/-- `grouped[year][month].push(photo)` at the month level, creating the
bucket when absent. -/
def insertMonth (im : List (String × List Photo)) (m : String) (p : Photo) :
    List (String × List Photo) :=
  match im with
  | [] => [(m, [p])]
  | (m', ps) :: rest =>
    if m' = m then (m', ps ++ [p]) :: rest else (m', ps) :: insertMonth rest m p

/-- The nested `grouped` object: year key to month key to photo bucket. -/
abbrev Grouped := List (String × List (String × List Photo))

/-- `grouped[year][month].push(photo)`, creating both missing levels. -/
def insertGrouped (g : Grouped) (y m : String) (p : Photo) : Grouped :=
  match g with
  | [] => [(y, [(m, [p])])]
  | (y', im) :: rest =>
    if y' = y then (y', insertMonth im m p) :: rest
    else (y', im) :: insertGrouped rest y m p

/-- One iteration of the `photos.forEach` body of `groupPhotosByDate`:
photos without a valid timestamp are skipped; otherwise the photo is
pushed into the bucket of its year string and long month name. -/
def groupStep (g : Grouped) (photo : Photo) : Grouped :=
  match photo.timestamp with
  | none => g
  | some ts =>
    let date := ts.toDate
    insertGrouped g (toString date.getFullYear) date.toLocaleMonthLong photo

/-- `groupPhotosByDate` (src/app/page.tsx lines 88-110, also
src/app/admin/page.tsx lines 1011-1023 and src/unnamed/part_001 lines
66-87). -/
def groupPhotosByDate (photos : List Photo) : Grouped :=
  photos.foldl groupStep []

/-- The `(year, month)` bucket key a photo lands in, `none` when its
timestamp is missing or invalid. -/
def photoKey (p : Photo) : Option (String × String) :=
  p.timestamp.map fun ts => (toString ts.toDate.getFullYear, ts.toDate.toLocaleMonthLong)

/-- The contents of `grouped[y][m]`, the empty list when absent. -/
def bucket (g : Grouped) (y m : String) : List Photo :=
  match lookupA g y with
  | none => []
  | some im => (lookupA im m).getD []

/-! ## Auth session and admin state

`onAuthStateChanged` hands the hook a `user` object (or `null`): the
hook stores `user.uid` and discards everything else, in particular
whether the user is anonymous. -/

/-- The identity reported by the auth provider: signed out (`null`
user), an anonymous user, or a named (email/password or custom-token)
user. -/
inductive Identity where
  | signedOut
  | anonymous (uid : String)
  | named (uid : String)
deriving DecidableEq, Repr

/-- The `onAuthStateChanged` callback body (src/app/admin/page.tsx lines
128-133 and 555-562): `user ? user.uid : null`.  An anonymous user is a
non-null `user` and so yields its uid. -/
def onAuthStateChangedUserId : Identity → Option String
  | .signedOut => none
  | .anonymous uid => some uid
  | .named uid => some uid

/-- The add-photo form `formData` with fields url and caption. -/
structure FormData where
  url : String
  caption : String
deriving DecidableEq, Repr

/-- The component state of the admin page that the mutation handlers
read and write: the auth signals from `useFirebase`, the resolved
namespace, the live photo mirror, the form, the status message and the
loading flag. -/
structure AdminState where
  authReady : Bool
  userId : Option String
  appId : String
  photos : List Photo
  formData : FormData
  message : String
  loading : Bool
deriving DecidableEq, Repr

/-- `isAuthorized = authReady && !!userId` (src/app/admin/page.tsx line
237) and `authReady && userId` (line 588); both are Boolean coercions of
the possibly-null `userId` string. -/
def isAuthorized (s : AdminState) : Bool :=
  s.authReady && jsTruthy s.userId

/-- The collection path `artifacts/{appId}/public/data/photos`. -/
def collectionPath (appId : String) : String :=
  "artifacts/" ++ appId ++ "/public/data/photos"

/-- The document written by `addDoc` in `handleAddPhoto`:
`{ ...formData, timestamp: Timestamp.now(), isFeatured: false, userId }`. -/
structure WriteRecord where
  url : String
  caption : String
  timestamp : Timestamp
  isFeatured : Bool
  userId : Option String
deriving DecidableEq, Repr

/-- A network write issued against the remote store. -/
inductive NetWrite where
  | addDoc (path : String) (doc : WriteRecord)
  | updateFeatured (path : String) (id : String) (isFeatured : Bool)
  | deleteDoc (path : String) (id : String)
deriving DecidableEq, Repr

/-- Remote effect of an `updateDoc(..., { isFeatured: b })` write on the
photos collection: the document with the matching id gets its
`isFeatured` field set.  `addDoc` (a fresh server-assigned id) and
`deleteDoc` are not needed by the claims about the feature operation and
leave the collection unchanged here. -/
def applyWrite (col : List Photo) : NetWrite → List Photo
  | .updateFeatured _ pid b =>
    col.map fun p => if p.id = pid then { p with isFeatured := b } else p
  | _ => col

namespace Admin1

/-- `handleAddPhoto` of the first admin variant (src/app/admin/page.tsx
lines 267-291).  `now` is the value of `Timestamp.now()`; `remoteErr` is
the outcome of the awaited `addDoc` (`none` = fulfilled, `some e` =
rejected with message `e`).  There is no required-field validation in
this variant. -/
def handleAddPhoto (s : AdminState) (now : Timestamp) (remoteErr : Option String) :
    AdminState × List NetWrite :=
  if isAuthorized s then
    let newDoc : WriteRecord :=
      { url := s.formData.url, caption := s.formData.caption,
        timestamp := now, isFeatured := false, userId := s.userId }
    match remoteErr with
    | none =>
      ({ s with message := "Photo added successfully!",
                formData := { url := "", caption := "" }, loading := false },
       [NetWrite.addDoc (collectionPath s.appId) newDoc])
    | some e =>
      ({ s with message := "Error adding photo: " ++ e ++ ". Check security rules.",
                loading := false },
       [NetWrite.addDoc (collectionPath s.appId) newDoc])
  else
    ({ s with message := "Error: Not authorized." }, [])

/-- `handleFeaturePhoto` of the first admin variant (src/app/admin/page.tsx
lines 293-309): un-feature every photo of the mirror that is currently
featured, then feature the target.  Modelled on the path where both
phases complete (the `catch` branch only replaces the success message;
a rejected phase truncates the write sequence and is outside the
assumption that both phases complete). -/
def handleFeaturePhoto (s : AdminState) (id : String) :
    AdminState × List NetWrite :=
  if isAuthorized s then
    let path := collectionPath s.appId
    let batchUpdates :=
      (s.photos.filter (·.isFeatured)).map fun p => NetWrite.updateFeatured path p.id false
    ({ s with message := "Photo featured!", loading := false },
     batchUpdates ++ [NetWrite.updateFeatured path id true])
  else
    (s, [])

end Admin1

namespace Admin2

/-- `handleAddPhoto` of the second admin variant (src/app/admin/page.tsx
lines 621-651): rejects unauthorized calls, then rejects an empty url or
caption (JS falsiness of `formData.url`/`formData.caption`), then issues
the `addDoc` write. -/
def handleAddPhoto (s : AdminState) (now : Timestamp) (remoteErr : Option String) :
    AdminState × List NetWrite :=
  if isAuthorized s then
    if s.formData.url = "" || s.formData.caption = "" then
      ({ s with message := "Error: Photo URL and Caption are required." }, [])
    else
      let newDoc : WriteRecord :=
        { url := s.formData.url, caption := s.formData.caption,
          timestamp := now, isFeatured := false, userId := s.userId }
      match remoteErr with
      | none =>
        ({ s with message := "Photo added successfully!",
                  formData := { url := "", caption := "" }, loading := false },
         [NetWrite.addDoc (collectionPath s.appId) newDoc])
      | some e =>
        ({ s with
             message := "Error adding photo: " ++ e ++
               ". Check security rules/user authorization.",
             loading := false },
         [NetWrite.addDoc (collectionPath s.appId) newDoc])
  else
    ({ s with
         message := "Error: Not authorized. Write operations require a non-anonymous sign-in." },
     [])

/-- `handleFeaturePhoto` of the second admin variant
(src/app/admin/page.tsx lines 653-681): phase 1 un-features every
currently-featured photo of the mirror, phase 2 features the target.
Modelled on the path where both phases complete, as in
`Admin1.handleFeaturePhoto`. -/
def handleFeaturePhoto (s : AdminState) (id : String) :
    AdminState × List NetWrite :=
  if isAuthorized s then
    let path := collectionPath s.appId
    let batchUpdates :=
      (s.photos.filter (·.isFeatured)).map fun p => NetWrite.updateFeatured path p.id false
    ({ s with message := "Photo featured as Photo of the Day!", loading := false },
     batchUpdates ++ [NetWrite.updateFeatured path id true])
  else
    ({ s with
         message := "Error: Not authorized. Write operations require a non-anonymous sign-in." },
     [])

end Admin2

/-! ## Featured/others split on the public page -/

/-- The snapshot callback split (src/app/page.tsx lines 219-225, also
src/unnamed/part_001 lines 183-189 and src/app/admin/page.tsx lines
1119-1121): `featured = fetchedPhotos.find(p => p.isFeatured) || null`
and `nonFeatured = fetchedPhotos.filter(p => p.id !== (featured ?
featured.id : null))` (a string id is never `null`, so with no featured
photo the filter keeps everything). -/
def splitFeatured (fetchedPhotos : List Photo) : Option Photo × List Photo :=
  let featured := fetchedPhotos.find? (·.isFeatured)
  (featured,
   fetchedPhotos.filter fun p =>
     match featured with
     | some f => p.id != f.id
     | none => true)

/-! ## Derived definitions used only to state and prove properties -/

/-- Effect of a single network write on one document: an update with a
matching id sets the `isFeatured` field, every other write leaves the
document alone.  Folding this pointwise over a write list agrees with
`applyWrite` on the whole collection. -/
def applyToPhoto (p : Photo) : NetWrite → Photo
  | .updateFeatured _ pid b => if p.id = pid then { p with isFeatured := b } else p
  | _ => p

/-- The year keys the photos of a list contribute to the grouping, with
multiplicity, in order. -/
def yearKeysOf (photos : List Photo) : List String :=
  photos.filterMap fun p => (photoKey p).map Prod.fst

/-- Modelled from the spec (section 4.2): the authorization predicate of
the hardened variant as the spec states it, `ready && identity != none
&& identity is not anonymous`.  It exists only for comparison with the
implemented `isAuthorized`. -/
def specIsAuthorizedHardened (ready : Bool) (ident : Identity) : Bool :=
  ready &&
    (match ident with
     | .signedOut => false
     | .anonymous _ => false
     | .named _ => true)

/-! ## Concrete sample data for witnesses -/

/-- A sample value of `Timestamp.now()`. -/
def demoNow : Timestamp := ⟨⟨2025, 3⟩⟩

/-- Sample photo: featured, January 2023. -/
def demoPhotoA : Photo :=
  { id := "a", url := "http://x/1.png", caption := "Hi", isFeatured := true,
    timestamp := some ⟨⟨2023, 0⟩⟩, userId := "u1" }

/-- Sample photo: featured, June 2023. -/
def demoPhotoB : Photo :=
  { id := "b", url := "http://x/2.png", caption := "Two", isFeatured := true,
    timestamp := some ⟨⟨2023, 5⟩⟩, userId := "u1" }

/-- Sample photo: not featured, January 2024. -/
def demoPhotoC : Photo :=
  { id := "c", url := "http://x/3.png", caption := "Three", isFeatured := false,
    timestamp := some ⟨⟨2024, 0⟩⟩, userId := "u1" }

/-- Sample photo lacking a valid timestamp. -/
def demoPhotoNoTs : Photo :=
  { id := "d", url := "http://x/4.png", caption := "Four", isFeatured := false,
    timestamp := none, userId := "u1" }

/-- A sample authorized admin state. -/
def demoAuthState : AdminState :=
  { authReady := true, userId := some "u1", appId := "acme-1",
    photos := [demoPhotoA, demoPhotoB, demoPhotoC],
    formData := { url := "http://x/1.png", caption := "Hi" },
    message := "", loading := false }

/-- A sample unauthorized admin state (auth finished, nobody signed in). -/
def demoUnauthState : AdminState :=
  { demoAuthState with userId := none }

/-- A sample authorized admin state whose form has an empty caption. -/
def demoEmptyCaptionState : AdminState :=
  { demoAuthState with formData := { url := "http://x/1.png", caption := "" } }

/-- Sample environment variables with every key set. -/
def demoEnvFull : ExternalConfig :=
  { apiKey := some "k", authDomain := some "d.example.com",
    projectId := some "proj-1", appId := some "1:23:web:ab" }

/-- Sample environment with no variable set. -/
def demoEnvNone : ExternalConfig :=
  { apiKey := none, authDomain := none, projectId := none, appId := none }

/-- Sample Canvas globals with a parsable config blob. -/
def demoCanvas : CanvasGlobals :=
  { app_id := "session/id 1", firebase_config := some "BLOB",
    initial_auth_token := some "tok" }

/-! ## Helper lemmas -/

theorem replaceDisallowed_all_allowed (s : String) :
    (replaceDisallowed s).toList.all isAllowedChar = true := by
  show ((s.toList.map fun c => if isAllowedChar c then c else '-').all isAllowedChar) = true
  simp only [List.all_eq_true]
  intro c hc
  rcases List.mem_map.mp hc with ⟨a, _, rfl⟩
  by_cases h : isAllowedChar a = true
  · rw [if_pos h]; exact h
  · rw [if_neg h]; decide

/-! ## C2 — configuration precedence and namespace character class -/

/-- C2, counterexample.  With no Canvas globals and environment variables
carrying an API key and the project id "my.project", the resolver takes
the environment branch and returns the project id verbatim as the
namespace; it contains a dot, so the namespace does not consist only of
characters in the class declared by the claim. -/
theorem getFirebaseConfig_env_namespace_unsanitized :
    (getFirebaseConfig
        { apiKey := some "k", authDomain := none,
          projectId := some "my.project", appId := none } none).appId =
      "my.project" ∧
    ("my.project".toList.all isAllowedChar) = false := by
  constructor
  · rfl
  · decide

/-- C2, amended.  Each of the three cited resolvers deterministically
prefers the runtime-injected global over the environment over the
fallback for the returned config object (a present but unparsable
global falls through exactly as an absent one).  The namespace, however,
is not always in the declared character class, and the variants
sanitize differently: in every variant the environment branch returns
the environment project id verbatim; the public-page variant sanitizes
only the Canvas session id, so its namespace lies in the class whenever
the environment project id is not set; the part_001 variant applies no
sanitization at all and returns the raw Canvas session id; the
hardcoded-fallback admin variant sanitizes its whole Canvas-branch
namespace — even a set environment project id — while leaving its
environment-branch namespace verbatim. -/
theorem getFirebaseConfig_precedence_and_charset :
    (∀ (env : ExternalConfig) (cg : CanvasGlobals) (blob : String),
       cg.firebase_config = some blob →
       (getFirebaseConfig env (some cg)).firebaseConfig = .canvas blob ∧
       (Part1.getFirebaseConfig env (some cg)).firebaseConfig = .canvas blob ∧
       (Admin3.getFirebaseConfig env (some cg)).firebaseConfig = .canvas blob) ∧
    (∀ (env : ExternalConfig) (cg : CanvasGlobals),
       cg.firebase_config = none →
       getFirebaseConfig env (some cg) = getFirebaseConfig env none ∧
       Part1.getFirebaseConfig env (some cg) = Part1.getFirebaseConfig env none ∧
       Admin3.getFirebaseConfig env (some cg) = Admin3.getFirebaseConfig env none) ∧
    (∀ env : ExternalConfig,
       jsTruthy env.projectId = true → jsTruthy env.apiKey = true →
       (getFirebaseConfig env none).firebaseConfig = .external env ∧
       (getFirebaseConfig env none).appId = env.projectId.getD "" ∧
       (Part1.getFirebaseConfig env none).firebaseConfig = .external env ∧
       (Part1.getFirebaseConfig env none).appId = env.projectId.getD "" ∧
       (Admin3.getFirebaseConfig env none).firebaseConfig = .external env ∧
       (Admin3.getFirebaseConfig env none).appId = env.projectId.getD "") ∧
    (∀ env : ExternalConfig,
       ¬(jsTruthy env.projectId = true ∧ jsTruthy env.apiKey = true) →
       (getFirebaseConfig env none).firebaseConfig = .empty ∧
       (Part1.getFirebaseConfig env none).firebaseConfig = .empty ∧
       (Admin3.getFirebaseConfig env none).firebaseConfig = .empty) ∧
    (∀ (env : ExternalConfig) (canvas : Option CanvasGlobals),
       jsTruthy env.projectId = false →
       ((getFirebaseConfig env canvas).appId).toList.all isAllowedChar = true) ∧
    (∀ (env : ExternalConfig) (cg : CanvasGlobals) (blob : String),
       cg.firebase_config = some blob →
       jsTruthy env.projectId = false →
       (Part1.getFirebaseConfig env (some cg)).appId = cg.app_id) ∧
    (∀ (env : ExternalConfig) (cg : CanvasGlobals) (blob : String),
       cg.firebase_config = some blob →
       ((Admin3.getFirebaseConfig env (some cg)).appId).toList.all isAllowedChar
         = true ∧
       (jsTruthy env.projectId = true →
         (Admin3.getFirebaseConfig env (some cg)).appId =
           replaceDisallowed (env.projectId.getD ""))) := by
  refine ⟨?_, ?_, ?_, ?_, ?_, ?_, ?_⟩
  · intro env cg blob h
    refine ⟨?_, ?_, ?_⟩ <;>
      simp [getFirebaseConfig, Part1.getFirebaseConfig, Admin3.getFirebaseConfig, h]
  · intro env cg h
    refine ⟨?_, ?_, ?_⟩ <;>
      simp [getFirebaseConfig, Part1.getFirebaseConfig, Admin3.getFirebaseConfig, h]
  · intro env hp ha
    refine ⟨?_, ?_, ?_, ?_, ?_, ?_⟩ <;>
      simp [getFirebaseConfig, Part1.getFirebaseConfig, Admin3.getFirebaseConfig, hp, ha]
  · intro env h
    have hb : (jsTruthy env.projectId && jsTruthy env.apiKey) = false := by
      cases hp : jsTruthy env.projectId <;> cases ha : jsTruthy env.apiKey <;> simp_all
    refine ⟨?_, ?_, ?_⟩ <;>
      simp [getFirebaseConfig, Part1.getFirebaseConfig, Admin3.getFirebaseConfig, hb]
  · intro env canvas hp
    have hb : (jsTruthy env.projectId && jsTruthy env.apiKey) = false := by
      simp [hp]
    match canvas with
    | none =>
      have ha : (getFirebaseConfig env none).appId = "default-app-id" := by
        simp [getFirebaseConfig, hb]
      rw [ha]; decide
    | some cg =>
      match hcfg : cg.firebase_config with
      | some blob =>
        have ha : (getFirebaseConfig env (some cg)).appId = replaceDisallowed cg.app_id := by
          simp [getFirebaseConfig, hcfg, hp]
        rw [ha]
        exact replaceDisallowed_all_allowed cg.app_id
      | none =>
        have ha : (getFirebaseConfig env (some cg)).appId = "default-app-id" := by
          simp [getFirebaseConfig, hcfg, hb]
        rw [ha]; decide
  · intro env cg blob h hp
    simp [Part1.getFirebaseConfig, h, hp]
  · intro env cg blob h
    constructor
    · have ha : (Admin3.getFirebaseConfig env (some cg)).appId =
          replaceDisallowed
            (if jsTruthy env.projectId then env.projectId.getD ""
             else Admin3.HARDCODED_PROJECT_ID) := by
        simp [Admin3.getFirebaseConfig, h]
      rw [ha]
      exact replaceDisallowed_all_allowed _
    · intro hp
      simp [Admin3.getFirebaseConfig, h, hp]

/-- C2, witness for the amended theorem at concrete inputs: the Canvas
blob wins when present; a populated environment is used when the global
is absent; with no environment project id the public-page namespace and
the admin-variant namespace lie in the character class while the
part_001 namespace is the raw session id "session/id 1". -/
theorem getFirebaseConfig_precedence_and_charset_witness :
    (demoCanvas.firebase_config = some "BLOB" ∧
       (getFirebaseConfig demoEnvNone (some demoCanvas)).firebaseConfig = .canvas "BLOB") ∧
    (jsTruthy demoEnvFull.projectId = true ∧ jsTruthy demoEnvFull.apiKey = true ∧
       (getFirebaseConfig demoEnvFull none).firebaseConfig = .external demoEnvFull) ∧
    (jsTruthy demoEnvNone.projectId = false ∧
       ((getFirebaseConfig demoEnvNone (some demoCanvas)).appId).toList.all isAllowedChar
         = true ∧
       (Part1.getFirebaseConfig demoEnvNone (some demoCanvas)).appId = "session/id 1" ∧
       ((Admin3.getFirebaseConfig demoEnvNone (some demoCanvas)).appId).toList.all
          isAllowedChar = true) :=
  ⟨⟨rfl, (getFirebaseConfig_precedence_and_charset.1 demoEnvNone demoCanvas "BLOB" rfl).1⟩,
   ⟨by decide, by decide,
    (getFirebaseConfig_precedence_and_charset.2.2.1 demoEnvFull (by decide) (by decide)).1⟩,
   ⟨by decide,
    getFirebaseConfig_precedence_and_charset.2.2.2.2.1 demoEnvNone (some demoCanvas)
      (by decide),
    getFirebaseConfig_precedence_and_charset.2.2.2.2.2.1 demoEnvNone demoCanvas "BLOB"
      rfl (by decide),
    (getFirebaseConfig_precedence_and_charset.2.2.2.2.2.2 demoEnvNone demoCanvas "BLOB"
      rfl).1⟩⟩

/-! ## C6 — fallback configuration -/

/-- C6, counterexample.  The admin-page resolver variant with a hardcoded
project id does not return the literal "default-app-id" when neither
source is populated: its fallback namespace is "gogfatherweb". -/
theorem admin3_fallback_namespace_not_default :
    (Admin3.getFirebaseConfig demoEnvNone none).appId = "gogfatherweb" ∧
    (Admin3.getFirebaseConfig demoEnvNone none).appId ≠ "default-app-id" := by
  constructor
  · rfl
  · decide

/-- C6, amended.  When neither the runtime-injected global nor the
environment variables are populated, each resolver returns an empty
config object together with its own literal fallback namespace:
"default-app-id" in the public-page variants, and the hardcoded project
id "gogfatherweb" in the admin variant with a hardcoded fallback. -/
theorem getFirebaseConfig_fallback (env : ExternalConfig)
    (h : ¬(jsTruthy env.projectId = true ∧ jsTruthy env.apiKey = true)) :
    getFirebaseConfig env none =
      { firebaseConfig := .empty, initialAuthToken := none,
        appId := "default-app-id", isCanvasEnv := false } ∧
    Admin3.getFirebaseConfig env none =
      { firebaseConfig := .empty, initialAuthToken := none,
        appId := "gogfatherweb", isCanvasEnv := false } := by
  have hb : (jsTruthy env.projectId && jsTruthy env.apiKey) = false := by
    cases hp : jsTruthy env.projectId <;> cases ha : jsTruthy env.apiKey <;> simp_all
  constructor
  · simp [getFirebaseConfig, hb]
  · simp [Admin3.getFirebaseConfig, hb, Admin3.HARDCODED_PROJECT_ID]

/-- C6, witness for the amended theorem with every source unset. -/
theorem getFirebaseConfig_fallback_witness :
    ¬(jsTruthy demoEnvNone.projectId = true ∧ jsTruthy demoEnvNone.apiKey = true) ∧
    (getFirebaseConfig demoEnvNone none =
       { firebaseConfig := .empty, initialAuthToken := none,
         appId := "default-app-id", isCanvasEnv := false } ∧
     Admin3.getFirebaseConfig demoEnvNone none =
       { firebaseConfig := .empty, initialAuthToken := none,
         appId := "gogfatherweb", isCanvasEnv := false }) :=
  ⟨by decide, getFirebaseConfig_fallback demoEnvNone (by decide)⟩

/-! ## C4 — the authorization predicate versus anonymous identities -/

/-- C4.  The implemented predicate is `authReady && !!userId`, and
`onAuthStateChanged` stores the uid of an anonymous user like any other
non-null user; so in a ready state with an anonymous identity the code
authorizes the caller, while the predicate the spec and the code comment
state (ready and identity neither none nor anonymous) refuses it.  This
evaluates both predicates at that state. -/
theorem isAuthorized_accepts_anonymous :
    isAuthorized
      { authReady := true,
        userId := onAuthStateChangedUserId (Identity.anonymous "anon-1"),
        appId := "gogfatherweb", photos := [],
        formData := { url := "", caption := "" },
        message := "", loading := false } = true ∧
    specIsAuthorizedHardened true (Identity.anonymous "anon-1") = false := by
  decide

/-! ## C3 — add while unauthorized -/

/-- C3.  In both admin variants, an add call made while `isAuthorized`
is false issues no network write, surfaces the authorization error
message, and leaves every other component of the state (in particular
the photo list and the form) unchanged. -/
theorem handleAddPhoto_unauthorized (s : AdminState) (now : Timestamp)
    (remoteErr : Option String) (h : isAuthorized s = false) :
    Admin1.handleAddPhoto s now remoteErr =
      ({ s with message := "Error: Not authorized." }, []) ∧
    Admin2.handleAddPhoto s now remoteErr =
      ({ s with message :=
           "Error: Not authorized. Write operations require a non-anonymous sign-in." },
       []) := by
  constructor
  · simp [Admin1.handleAddPhoto, h]
  · simp [Admin2.handleAddPhoto, h]

/-- C3, witness at an unauthorized concrete state. -/
theorem handleAddPhoto_unauthorized_witness :
    isAuthorized demoUnauthState = false ∧
    (Admin1.handleAddPhoto demoUnauthState demoNow none =
       ({ demoUnauthState with message := "Error: Not authorized." }, []) ∧
     Admin2.handleAddPhoto demoUnauthState demoNow none =
       ({ demoUnauthState with message :=
            "Error: Not authorized. Write operations require a non-anonymous sign-in." },
        [])) :=
  ⟨by decide, handleAddPhoto_unauthorized demoUnauthState demoNow none (by decide)⟩

/-! ## C9 — the record written by a successful add -/

/-- C9.  In both admin variants, a successful add (authorized caller,
non-empty fields, fulfilled write) issues exactly one document creation
whose record carries the current form fields, the freshly generated
creation timestamp `now`, `isFeatured = false` and the current identity
as owner, and resets the form to empty fields. -/
theorem handleAddPhoto_success (s : AdminState) (now : Timestamp)
    (hAuth : isAuthorized s = true)
    (hurl : s.formData.url ≠ "") (hcap : s.formData.caption ≠ "") :
    Admin2.handleAddPhoto s now none =
      ({ s with message := "Photo added successfully!",
                formData := { url := "", caption := "" }, loading := false },
       [NetWrite.addDoc (collectionPath s.appId)
          { url := s.formData.url, caption := s.formData.caption,
            timestamp := now, isFeatured := false, userId := s.userId }]) ∧
    Admin1.handleAddPhoto s now none =
      ({ s with message := "Photo added successfully!",
                formData := { url := "", caption := "" }, loading := false },
       [NetWrite.addDoc (collectionPath s.appId)
          { url := s.formData.url, caption := s.formData.caption,
            timestamp := now, isFeatured := false, userId := s.userId }]) := by
  constructor
  · simp [Admin2.handleAddPhoto, hAuth, hurl, hcap]
  · simp [Admin1.handleAddPhoto, hAuth]

/-- C9, witness at a concrete authorized state with a filled form. -/
theorem handleAddPhoto_success_witness :
    (isAuthorized demoAuthState = true ∧
     demoAuthState.formData.url ≠ "" ∧ demoAuthState.formData.caption ≠ "") ∧
    Admin2.handleAddPhoto demoAuthState demoNow none =
      ({ demoAuthState with message := "Photo added successfully!",
                            formData := { url := "", caption := "" }, loading := false },
       [NetWrite.addDoc (collectionPath demoAuthState.appId)
          { url := demoAuthState.formData.url, caption := demoAuthState.formData.caption,
            timestamp := demoNow, isFeatured := false, userId := demoAuthState.userId }]) :=
  ⟨⟨by decide, by decide, by decide⟩,
   (handleAddPhoto_success demoAuthState demoNow (by decide) (by decide) (by decide)).1⟩

/-! ## C5 — required-field validation -/

/-- C5, counterexample.  The first admin variant performs no
required-field validation: at an authorized state whose form has an
empty caption, the add call issues a network write (carrying the empty
caption), contradicting the claim that no write is issued and a
validation error is surfaced. -/
theorem admin1_add_empty_caption_issues_write :
    isAuthorized demoEmptyCaptionState = true ∧
    demoEmptyCaptionState.formData.caption = "" ∧
    (Admin1.handleAddPhoto demoEmptyCaptionState demoNow none).2 =
      [NetWrite.addDoc (collectionPath demoEmptyCaptionState.appId)
         { url := demoEmptyCaptionState.formData.url, caption := "",
           timestamp := demoNow, isFeatured := false,
           userId := demoEmptyCaptionState.userId }] ∧
    (Admin1.handleAddPhoto demoEmptyCaptionState demoNow none).2 ≠ [] := by
  refine ⟨by decide, by decide, by decide, by decide⟩

/-- C5, amended.  Only the second admin variant validates required
fields, and the authorization check precedes the validation: when the
caller is authorized and the url or the caption is empty, it issues no
network write and surfaces the required-fields validation error with the
rest of the state unchanged; when the caller is unauthorized it still
issues no write but surfaces the authorization error instead; the first
admin variant performs no field validation and issues the write even
with an empty required field. -/
theorem handleAddPhoto_validation (s : AdminState) (now : Timestamp)
    (remoteErr : Option String)
    (hEmpty : s.formData.url = "" ∨ s.formData.caption = "") :
    (isAuthorized s = true →
       Admin2.handleAddPhoto s now remoteErr =
         ({ s with message := "Error: Photo URL and Caption are required." }, [])) ∧
    (isAuthorized s = false → (Admin2.handleAddPhoto s now remoteErr).2 = []) ∧
    (isAuthorized s = true →
       (Admin1.handleAddPhoto s now remoteErr).2 =
         [NetWrite.addDoc (collectionPath s.appId)
            { url := s.formData.url, caption := s.formData.caption,
              timestamp := now, isFeatured := false, userId := s.userId }]) := by
  refine ⟨fun hA => ?_, fun hA => ?_, fun hA => ?_⟩
  · rcases hEmpty with h | h <;> simp [Admin2.handleAddPhoto, hA, h]
  · simp [Admin2.handleAddPhoto, hA]
  · cases remoteErr <;> simp [Admin1.handleAddPhoto, hA]

/-- C5, witness for the amended theorem at a concrete authorized state
with an empty caption. -/
theorem handleAddPhoto_validation_witness :
    (demoEmptyCaptionState.formData.url = "" ∨
       demoEmptyCaptionState.formData.caption = "") ∧
    (isAuthorized demoEmptyCaptionState = true →
       Admin2.handleAddPhoto demoEmptyCaptionState demoNow none =
         ({ demoEmptyCaptionState with
              message := "Error: Photo URL and Caption are required." }, [])) :=
  ⟨by decide,
   (handleAddPhoto_validation demoEmptyCaptionState demoNow none (by decide)).1⟩

/-! ## C1 — the two-phase feature operation -/

theorem foldl_applyWrite_eq_map (ws : List NetWrite) (col : List Photo) :
    ws.foldl applyWrite col = col.map fun p => ws.foldl applyToPhoto p := by
  induction ws generalizing col with
  | nil => simp
  | cons w ws ih =>
    have hstep : applyWrite col w = col.map fun p => applyToPhoto p w := by
      cases w <;> simp [applyWrite, applyToPhoto]
    rw [List.foldl_cons, hstep, ih, List.map_map]
    rfl

theorem foldl_unfeature (path : String) (L : List String) (p : Photo) :
    ((L.map fun fid => NetWrite.updateFeatured path fid false).foldl applyToPhoto p) =
      if p.id ∈ L then { p with isFeatured := false } else p := by
  induction L generalizing p with
  | nil => simp
  | cons fid rest ih =>
    simp only [List.map_cons, List.foldl_cons]
    by_cases h : p.id = fid
    · have h1 : applyToPhoto p (NetWrite.updateFeatured path fid false) =
          { p with isFeatured := false } := by simp [applyToPhoto, h]
      rw [h1, ih]
      by_cases h2 : p.id ∈ rest <;> simp [h, h2]
    · have h1 : applyToPhoto p (NetWrite.updateFeatured path fid false) = p := by
        simp [applyToPhoto, h]
      rw [h1, ih]
      simp [List.mem_cons, h]

theorem countP_id_eq_one (photos : List Photo) (id : String)
    (hNodup : (photos.map Photo.id).Nodup) (hMem : id ∈ photos.map Photo.id) :
    photos.countP (fun p => p.id == id) = 1 := by
  induction photos with
  | nil => simp at hMem
  | cons p rest ih =>
    rw [List.map_cons, List.nodup_cons] at hNodup
    rw [List.map_cons, List.mem_cons] at hMem
    by_cases h : p.id = id
    · rw [List.countP_cons_of_pos _ _ (by simp [h])]
      have h0 : rest.countP (fun q => q.id == id) = 0 := by
        rw [List.countP_eq_zero]
        intro q hq
        simp only [beq_iff_eq]
        intro hqid
        exact hNodup.1 (by rw [h, ← hqid]; exact List.mem_map_of_mem Photo.id hq)
      simp [h0]
    · rw [List.countP_cons_of_neg _ _ (by simp [h])]
      apply ih hNodup.2
      rcases hMem with heq | hm
      · exact absurd heq.symm h
      · exact hm

/-- C1.  When the caller is authorized, the collection mirror has unique
document ids (as a Firestore snapshot does) and the target id occurs in
the collection (otherwise phase two could not complete), the feature
operation of either admin variant issues the un-feature write for every
currently-featured photo followed by the feature write for the target,
and — with both phases applied to the collection and no interleaving
writes — afterwards exactly one photo is featured and it is the photo
with the given id. -/
theorem setFeatured_exactly_one (s : AdminState) (id : String)
    (hAuth : isAuthorized s = true)
    (hNodup : (s.photos.map Photo.id).Nodup)
    (hMem : id ∈ s.photos.map Photo.id) :
    (Admin2.handleFeaturePhoto s id).2 =
      ((s.photos.filter (·.isFeatured)).map fun p =>
          NetWrite.updateFeatured (collectionPath s.appId) p.id false) ++
        [NetWrite.updateFeatured (collectionPath s.appId) id true] ∧
    (Admin1.handleFeaturePhoto s id).2 = (Admin2.handleFeaturePhoto s id).2 ∧
    (((Admin2.handleFeaturePhoto s id).2.foldl applyWrite s.photos).countP
        (·.isFeatured)) = 1 ∧
    (∀ p ∈ (Admin2.handleFeaturePhoto s id).2.foldl applyWrite s.photos,
        p.isFeatured = true → p.id = id) := by
  have hw : (Admin2.handleFeaturePhoto s id).2 =
      ((s.photos.filter (·.isFeatured)).map fun p =>
          NetWrite.updateFeatured (collectionPath s.appId) p.id false) ++
        [NetWrite.updateFeatured (collectionPath s.appId) id true] := by
    simp [Admin2.handleFeaturePhoto, hAuth]
  have hw1 : (Admin1.handleFeaturePhoto s id).2 = (Admin2.handleFeaturePhoto s id).2 := by
    simp [Admin1.handleFeaturePhoto, Admin2.handleFeaturePhoto, hAuth]
  set path := collectionPath s.appId with hpath
  set featuredIds := (s.photos.filter (·.isFeatured)).map Photo.id with hfids
  have hphase : ((s.photos.filter (·.isFeatured)).map fun p =>
      NetWrite.updateFeatured path p.id false) =
      featuredIds.map fun fid => NetWrite.updateFeatured path fid false := by
    rw [hfids, List.map_map]
    rfl
  have hcol : (Admin2.handleFeaturePhoto s id).2.foldl applyWrite s.photos =
      s.photos.map fun p =>
        if p.id = id then { p with isFeatured := true }
        else if p.id ∈ featuredIds then { p with isFeatured := false } else p := by
    rw [hw, hphase, foldl_applyWrite_eq_map]
    congr 1
    funext p
    rw [List.foldl_append, foldl_unfeature]
    by_cases h2 : p.id = id
    · subst h2
      by_cases h : p.id ∈ featuredIds <;> simp [applyToPhoto, h]
    · by_cases h : p.id ∈ featuredIds <;> simp [applyToPhoto, h, h2]
  have hfeat : ∀ p ∈ s.photos, p.isFeatured = true → p.id ∈ featuredIds := by
    intro p hp hpf
    exact hfids ▸ List.mem_map_of_mem Photo.id (List.mem_filter.mpr ⟨hp, by simp [hpf]⟩)
  refine ⟨hw, hw1, ?_, ?_⟩
  · rw [hcol, List.countP_map]
    have hcong : ∀ p ∈ s.photos,
        (((fun q : Photo => q.isFeatured) ∘ fun p =>
            if p.id = id then { p with isFeatured := true }
            else if p.id ∈ featuredIds then { p with isFeatured := false } else p) p
          = true) ↔
          ((fun q : Photo => q.id == id) p = true) := by
      intro p hp
      by_cases h2 : p.id = id
      · simp [h2]
      · by_cases h3 : p.id ∈ featuredIds
        · simp [h2, h3]
        · have hpf : p.isFeatured = false := by
            cases hpf : p.isFeatured
            · rfl
            · exact absurd (hfeat p hp hpf) h3
          simp [h2, h3, hpf]
    rw [List.countP_congr hcong]
    exact countP_id_eq_one s.photos id hNodup hMem
  · intro q hq hqf
    rw [hcol] at hq
    rcases List.mem_map.mp hq with ⟨p, hp, rfl⟩
    by_cases h2 : p.id = id
    · simp [h2]
    · by_cases h3 : p.id ∈ featuredIds
      · simp [h2, h3] at hqf
      · rw [if_neg h2, if_neg h3] at hqf ⊢
        exact absurd (hfeat p hp hqf) h3

/-- C1, witness: featuring photo c in a collection where a and b are
both featured ends with exactly c featured. -/
theorem setFeatured_exactly_one_witness :
    (isAuthorized demoAuthState = true ∧
     (demoAuthState.photos.map Photo.id).Nodup ∧
     "c" ∈ demoAuthState.photos.map Photo.id) ∧
    (((Admin2.handleFeaturePhoto demoAuthState "c").2.foldl applyWrite
        demoAuthState.photos).countP (·.isFeatured)) = 1 :=
  ⟨⟨by decide, by decide, by decide⟩,
   (setFeatured_exactly_one demoAuthState "c" (by decide) (by decide)
      (by decide)).2.2.1⟩

/-! ## C10 — the featured/others split of the public page -/

theorem find?_isFeatured_first (l : List Photo) (f : Photo)
    (h : l.find? (·.isFeatured) = some f) :
    f.isFeatured = true ∧
    ∃ l1 l2, l = l1 ++ f :: l2 ∧ ∀ q ∈ l1, q.isFeatured = false := by
  induction l with
  | nil => simp at h
  | cons p rest ih =>
    by_cases hp : p.isFeatured = true
    · rw [List.find?_cons_of_pos _ hp] at h
      obtain rfl : p = f := Option.some.inj h
      exact ⟨hp, [], rest, rfl, by simp⟩
    · rw [List.find?_cons_of_neg _ (by simpa using hp)] at h
      obtain ⟨hf, l1, l2, hdec, hprev⟩ := ih h
      refine ⟨hf, p :: l1, l2, by simp [hdec], ?_⟩
      intro q hq
      rcases List.mem_cons.mp hq with rfl | hq2
      · simpa using hp
      · exact hprev q hq2

theorem filter_id_single (l : List Photo) (f : Photo)
    (hNodup : (l.map Photo.id).Nodup) (hf : f ∈ l) :
    l.filter (fun q => q.id == f.id) = [f] := by
  induction l with
  | nil => simp at hf
  | cons a rest ih =>
    rw [List.map_cons, List.nodup_cons] at hNodup
    rcases List.mem_cons.mp hf with heq | hmem
    · rw [List.filter_cons_of_pos (by simp [heq])]
      have h0 : rest.filter (fun q => q.id == f.id) = [] := by
        rw [List.filter_eq_nil_iff]
        intro q hq
        simp only [beq_iff_eq]
        intro hqid
        exact hNodup.1 (by rw [← heq, ← hqid]; exact List.mem_map_of_mem Photo.id hq)
      rw [h0, heq]
    · have hne : (a.id == f.id) = false := by
        simp only [beq_eq_false_iff_ne, ne_eq]
        intro heq2
        exact hNodup.1 (by rw [heq2]; exact List.mem_map_of_mem Photo.id hmem)
      rw [List.filter_cons_of_neg (by simp [hne])]
      exact ih hNodup.2 hmem

/-- C10.  On a snapshot list with unique document ids, the split exposes
as the featured photo the first photo in snapshot order whose
`isFeatured` flag is true (none when no photo is featured, in which case
the others list is the whole snapshot); the others list is the snapshot
with exactly the featured id removed, so later featured photos remain in
it, and the featured photo together with the others list is a
permutation of the snapshot — every photo appears exactly once. -/
theorem splitFeatured_spec (photos : List Photo)
    (hNodup : (photos.map Photo.id).Nodup) :
    ((splitFeatured photos).1 = none ↔ ∀ p ∈ photos, p.isFeatured = false) ∧
    ((splitFeatured photos).1 = none → (splitFeatured photos).2 = photos) ∧
    (∀ f, (splitFeatured photos).1 = some f →
       f.isFeatured = true ∧
       (∃ l1 l2, photos = l1 ++ f :: l2 ∧ ∀ q ∈ l1, q.isFeatured = false) ∧
       (splitFeatured photos).2 = photos.filter (fun p => p.id != f.id) ∧
       (f :: (splitFeatured photos).2).Perm photos ∧
       (∀ p ∈ photos, p.isFeatured = true → p.id ≠ f.id →
          p ∈ (splitFeatured photos).2)) := by
  have h1 : (splitFeatured photos).1 = photos.find? (·.isFeatured) := rfl
  refine ⟨?_, ?_, ?_⟩
  · rw [h1, List.find?_eq_none]
    simp [Bool.not_eq_true]
  · intro h0
    have hfind : photos.find? (·.isFeatured) = none := h1 ▸ h0
    simp [splitFeatured, hfind]
  · intro f hf
    have hfind : photos.find? (·.isFeatured) = some f := h1 ▸ hf
    obtain ⟨hfeat, l1, l2, hdec, hprev⟩ := find?_isFeatured_first photos f hfind
    have hfmem : f ∈ photos := List.mem_of_find?_eq_some hfind
    have h2 : (splitFeatured photos).2 = photos.filter (fun p => p.id != f.id) := by
      simp only [splitFeatured, hfind]
    refine ⟨hfeat, ⟨l1, l2, hdec, hprev⟩, h2, ?_, ?_⟩
    · rw [h2]
      have hperm := List.filter_append_perm (fun p => p.id == f.id) photos
      rw [filter_id_single photos f hNodup hfmem] at hperm
      simpa [bne] using hperm
    · intro p hp hpf hpne
      rw [h2, List.mem_filter]
      exact ⟨hp, by simpa [bne] using hpne⟩

/-- C10, witness: with photos a and b both featured and c not, the split
exposes a as featured and keeps b in the others list, and together they
are a permutation of the snapshot. -/
theorem splitFeatured_spec_witness :
    (List.map Photo.id [demoPhotoA, demoPhotoB, demoPhotoC]).Nodup ∧
    (demoPhotoA :: (splitFeatured [demoPhotoA, demoPhotoB, demoPhotoC]).2).Perm
      [demoPhotoA, demoPhotoB, demoPhotoC] :=
  ⟨by decide,
   ((splitFeatured_spec [demoPhotoA, demoPhotoB, demoPhotoC] (by decide)).2.2
      demoPhotoA (by decide)).2.2.2.1⟩

/-! ## Lemmas about the grouping structure -/

theorem lookupA_insertMonth (im : List (String × List Photo)) (m : String)
    (p : Photo) (m' : String) :
    lookupA (insertMonth im m p) m' =
      if m = m' then some ((lookupA im m').getD [] ++ [p]) else lookupA im m' := by
  induction im with
  | nil =>
    by_cases h : m = m' <;> simp [insertMonth, lookupA, h]
  | cons kv rest ih =>
    obtain ⟨k, v⟩ := kv
    by_cases hk : k = m
    · subst hk
      by_cases h : k = m' <;> simp [insertMonth, lookupA, h]
    · by_cases h : k = m'
      · subst h
        have hm : m ≠ k := fun hmm => hk hmm.symm
        simp [insertMonth, lookupA, hk, hm]
      · simp [insertMonth, lookupA, hk, h, ih]

theorem lookupA_insertGrouped (g : Grouped) (y m : String) (p : Photo) (y' : String) :
    lookupA (insertGrouped g y m p) y' =
      if y = y' then some (insertMonth ((lookupA g y').getD []) m p)
      else lookupA g y' := by
  induction g with
  | nil =>
    by_cases h : y = y' <;> simp [insertGrouped, lookupA, h, insertMonth]
  | cons kv rest ih =>
    obtain ⟨k, im⟩ := kv
    by_cases hk : k = y
    · subst hk
      by_cases h : k = y' <;> simp [insertGrouped, lookupA, h]
    · by_cases h : k = y'
      · subst h
        have hy : y ≠ k := fun hmm => hk hmm.symm
        simp [insertGrouped, lookupA, hk, hy]
      · simp [insertGrouped, lookupA, hk, h, ih]

theorem bucket_insertGrouped (g : Grouped) (y m : String) (p : Photo)
    (y' m' : String) :
    bucket (insertGrouped g y m p) y' m' =
      if y = y' ∧ m = m' then bucket g y' m' ++ [p] else bucket g y' m' := by
  unfold bucket
  rw [lookupA_insertGrouped]
  by_cases hy : y = y'
  · rw [if_pos hy]
    cases hg : lookupA g y' with
    | none =>
      by_cases hm : m = m' <;> simp [insertMonth, lookupA, hm, hy]
    | some im =>
      simp only [Option.getD_some]
      rw [lookupA_insertMonth]
      by_cases hm : m = m' <;> cases him : lookupA im m' <;>
        simp [hm, hy, him]
  · rw [if_neg hy]
    have : ¬(y = y' ∧ m = m') := fun hc => hy hc.1
    rw [if_neg this]

theorem bucket_nil (y m : String) : bucket ([] : Grouped) y m = [] := rfl

theorem bucket_groupStep (g : Grouped) (p : Photo) (y m : String) :
    bucket (groupStep g p) y m =
      if photoKey p = some (y, m) then bucket g y m ++ [p] else bucket g y m := by
  cases hts : p.timestamp with
  | none => simp [groupStep, photoKey, hts]
  | some ts =>
    simp only [groupStep, hts]
    rw [bucket_insertGrouped]
    by_cases hk : photoKey p = some (y, m)
    · have hk2 : toString ts.toDate.getFullYear = y ∧ ts.toDate.toLocaleMonthLong = m := by
        have := hk
        simp [photoKey, hts, Prod.ext_iff] at this
        exact this
      rw [if_pos hk2, if_pos hk]
    · have hk2 : ¬(toString ts.toDate.getFullYear = y ∧ ts.toDate.toLocaleMonthLong = m) := by
        intro hc
        exact hk (by simp [photoKey, hts, Prod.ext_iff, hc.1, hc.2])
      rw [if_neg hk2, if_neg hk]

theorem bucket_foldl (photos : List Photo) (g : Grouped) (y m : String) :
    bucket (photos.foldl groupStep g) y m =
      bucket g y m ++
        photos.filter (fun p => decide (photoKey p = some (y, m))) := by
  induction photos generalizing g with
  | nil => simp
  | cons p rest ih =>
    rw [List.foldl_cons, ih, bucket_groupStep]
    by_cases h : photoKey p = some (y, m)
    · rw [if_pos h, List.filter_cons_of_pos (by simp [h]), List.append_assoc]
      simp
    · rw [if_neg h, List.filter_cons_of_neg (by simp [h])]

theorem bucket_groupPhotosByDate (photos : List Photo) (y m : String) :
    bucket (groupPhotosByDate photos) y m =
      photos.filter (fun p => decide (photoKey p = some (y, m))) := by
  unfold groupPhotosByDate
  rw [bucket_foldl, bucket_nil, List.nil_append]

theorem map_fst_insertGrouped (g : Grouped) (y m : String) (p : Photo) :
    (insertGrouped g y m p).map Prod.fst =
      if y ∈ g.map Prod.fst then g.map Prod.fst else g.map Prod.fst ++ [y] := by
  induction g with
  | nil => simp [insertGrouped]
  | cons kv rest ih =>
    obtain ⟨k, im⟩ := kv
    by_cases hk : k = y
    · subst hk
      simp [insertGrouped]
    · have hky : y ≠ k := fun h => hk h.symm
      simp only [insertGrouped, if_neg hk, List.map_cons, ih]
      by_cases hmem : y ∈ rest.map Prod.fst
      · rw [if_pos hmem, if_pos (by simp [List.mem_cons, hmem])]
      · rw [if_neg hmem]
        have hnot : y ∉ (k :: rest.map Prod.fst) := by
          intro hmm
          rcases List.mem_cons.mp hmm with h | h
          · exact hky h
          · exact hmem h
        rw [if_neg hnot, List.cons_append]

theorem mem_map_fst_insertGrouped (g : Grouped) (y m : String) (p : Photo)
    (y' : String) :
    y' ∈ (insertGrouped g y m p).map Prod.fst ↔
      y' ∈ g.map Prod.fst ∨ y' = y := by
  rw [map_fst_insertGrouped]
  by_cases h : y ∈ g.map Prod.fst
  · rw [if_pos h]
    constructor
    · exact Or.inl
    · rintro (hy | rfl)
      · exact hy
      · exact h
  · rw [if_neg h]
    simp [List.mem_append]

theorem nodup_map_fst_insertGrouped (g : Grouped) (y m : String) (p : Photo)
    (h : (g.map Prod.fst).Nodup) :
    ((insertGrouped g y m p).map Prod.fst).Nodup := by
  rw [map_fst_insertGrouped]
  by_cases hmem : y ∈ g.map Prod.fst
  · rwa [if_pos hmem]
  · rw [if_neg hmem]
    simp [List.nodup_append, h, hmem]

theorem nodup_map_fst_foldl (photos : List Photo) (g : Grouped)
    (h : (g.map Prod.fst).Nodup) :
    ((photos.foldl groupStep g).map Prod.fst).Nodup := by
  induction photos generalizing g with
  | nil => exact h
  | cons p rest ih =>
    rw [List.foldl_cons]
    apply ih
    cases hts : p.timestamp with
    | none => simpa [groupStep, hts]
    | some ts =>
      simp only [groupStep, hts]
      exact nodup_map_fst_insertGrouped _ _ _ _ h

theorem mem_map_fst_foldl (photos : List Photo) (g : Grouped) (y : String) :
    y ∈ ((photos.foldl groupStep g).map Prod.fst) ↔
      y ∈ g.map Prod.fst ∨ y ∈ yearKeysOf photos := by
  induction photos generalizing g with
  | nil => simp [yearKeysOf]
  | cons p rest ih =>
    rw [List.foldl_cons, ih]
    cases hts : p.timestamp with
    | none =>
      simp [groupStep, hts, yearKeysOf, photoKey]
    | some ts =>
      simp only [groupStep, hts]
      rw [mem_map_fst_insertGrouped]
      have : yearKeysOf (p :: rest) =
          toString ts.toDate.getFullYear :: yearKeysOf rest := by
        simp [yearKeysOf, photoKey, hts]
      rw [this]
      simp [List.mem_cons]
      tauto

/-! ## C8 — photos without a valid timestamp -/

theorem foldl_groupStep_filter (photos : List Photo) (g : Grouped) :
    (photos.filter fun p => p.timestamp.isSome).foldl groupStep g =
      photos.foldl groupStep g := by
  induction photos generalizing g with
  | nil => rfl
  | cons p rest ih =>
    cases hts : p.timestamp with
    | none =>
      rw [List.filter_cons_of_neg (by simp [hts]), List.foldl_cons,
        show groupStep g p = g from by simp [groupStep, hts]]
      exact ih g
    | some ts =>
      rw [List.filter_cons_of_pos (by simp [hts]), List.foldl_cons, List.foldl_cons]
      exact ih _

/-- C8.  A photo whose timestamp is missing or not convertible is placed
in no bucket, and the whole grouping equals the grouping of the sublist
of photos with a valid timestamp; the function is total, so no error is
raised. -/
theorem groupPhotosByDate_invalid_excluded :
    ∀ photos : List Photo,
      groupPhotosByDate photos =
        groupPhotosByDate (photos.filter fun p => p.timestamp.isSome) ∧
      ∀ p : Photo, p.timestamp = none →
        ∀ y m, p ∉ bucket (groupPhotosByDate photos) y m := by
  intro photos
  constructor
  · unfold groupPhotosByDate
    exact (foldl_groupStep_filter photos []).symm
  · intro p hts y m hmem
    rw [bucket_groupPhotosByDate] at hmem
    have h := List.of_mem_filter hmem
    simp [photoKey, hts] at h

/-- C8, witness: a photo without timestamp is excluded and the grouping
equals the grouping of the valid sublist. -/
theorem groupPhotosByDate_invalid_excluded_witness :
    groupPhotosByDate [demoPhotoA, demoPhotoNoTs] =
      groupPhotosByDate ([demoPhotoA, demoPhotoNoTs].filter fun p => p.timestamp.isSome) ∧
    (demoPhotoNoTs.timestamp = none ∧
     demoPhotoNoTs ∉ bucket (groupPhotosByDate [demoPhotoA, demoPhotoNoTs])
        "2023" "January") :=
  ⟨(groupPhotosByDate_invalid_excluded [demoPhotoA, demoPhotoNoTs]).1,
   rfl,
   (groupPhotosByDate_invalid_excluded [demoPhotoA, demoPhotoNoTs]).2 demoPhotoNoTs rfl
     "2023" "January"⟩

/-! ## C7 — grouping of the empty list and of a two-year list -/

/-- C7.  The grouping of the empty list is the empty mapping, and for a
duplicate-free list of photos with valid timestamps spanning exactly two
calendar years (two distinct year keys among the photos), the grouping
has exactly two top-level year keys, and every input photo occurs
exactly once in the bucket of its own year string and month name and in
no other bucket. -/
theorem groupPhotosByDate_two_years :
    groupPhotosByDate [] = [] ∧
    ∀ photos : List Photo, photos.Nodup →
      (∀ p ∈ photos, p.timestamp.isSome) →
      (yearKeysOf photos).dedup.length = 2 →
      ((groupPhotosByDate photos).map Prod.fst).length = 2 ∧
      ∀ p ∈ photos, ∀ y m, photoKey p = some (y, m) →
        (bucket (groupPhotosByDate photos) y m).count p = 1 ∧
        ∀ y' m', p ∈ bucket (groupPhotosByDate photos) y' m' → y' = y ∧ m' = m := by
  constructor
  · rfl
  · intro photos hNodup hValid hTwo
    constructor
    · have hnd : ((groupPhotosByDate photos).map Prod.fst).Nodup := by
        unfold groupPhotosByDate
        exact nodup_map_fst_foldl photos [] (by simp)
      have hmem : ∀ y, y ∈ (groupPhotosByDate photos).map Prod.fst ↔
          y ∈ yearKeysOf photos := by
        intro y
        unfold groupPhotosByDate
        rw [mem_map_fst_foldl]
        simp
      have htf : ((groupPhotosByDate photos).map Prod.fst).toFinset =
          (yearKeysOf photos).toFinset := by
        ext y
        simp only [List.mem_toFinset]
        exact hmem y
      calc ((groupPhotosByDate photos).map Prod.fst).length
          = ((groupPhotosByDate photos).map Prod.fst).toFinset.card :=
            (List.toFinset_card_of_nodup hnd).symm
        _ = (yearKeysOf photos).toFinset.card := by rw [htf]
        _ = (yearKeysOf photos).dedup.length := by rw [List.card_toFinset]
        _ = 2 := hTwo
    · intro p hp y m hkey
      constructor
      · rw [bucket_groupPhotosByDate, List.count_filter (by simp [hkey])]
        exact List.count_eq_one_of_mem hNodup hp
      · intro y' m' hmem'
        rw [bucket_groupPhotosByDate] at hmem'
        have h := List.of_mem_filter hmem'
        simp only [decide_eq_true_eq] at h
        rw [hkey] at h
        injection h with h2
        exact ⟨(Prod.ext_iff.mp h2).1.symm, (Prod.ext_iff.mp h2).2.symm⟩

/-- C7, witness: three photos spanning 2023 and 2024 give exactly two
top-level year keys. -/
theorem groupPhotosByDate_two_years_witness :
    ([demoPhotoA, demoPhotoB, demoPhotoC].Nodup ∧
     (∀ p ∈ [demoPhotoA, demoPhotoB, demoPhotoC], p.timestamp.isSome) ∧
     (yearKeysOf [demoPhotoA, demoPhotoB, demoPhotoC]).dedup.length = 2) ∧
    ((groupPhotosByDate [demoPhotoA, demoPhotoB, demoPhotoC]).map Prod.fst).length = 2 :=
  ⟨⟨by decide, by decide, by decide⟩,
   (groupPhotosByDate_two_years.2 [demoPhotoA, demoPhotoB, demoPhotoC]
      (by decide) (by decide) (by decide)).1⟩

end Gogfather
